import Mathlib

/-!
Verification development for the ERA-5 raster extraction script
(`era_temp_overlay.py`).  The script overlays a point file on a multi-band
monthly raster, extracts the per-band cell value for every point, converts
units, and matches each point's observation date against the per-band
year-month labels.  The definitions below are a shallow embedding of the
script: numeric cell values are modelled as rationals, the numpy
year-month arithmetic (`np.datetime64` with unit `'M'`) as a `YM`
structure, and the module-level control flow as a pure function producing
a trace of effects.
-/

namespace Era5

/-! ## Decimal digit strings

`np.datetime_as_string` and `str(np.datetime64)` print year-month values
as zero-padded decimal text ("YYYY-MM"); `datetime.strptime` reads decimal
fields.  We model decimal formatting with a fuel-based (hence
kernel-reducible) digit emitter and decimal reading with a left fold. -/

/-- Numeric value of one ASCII character, as used when reading decimal
fields: subtract the code of `'0'`. -/
def charVal (c : Char) : Nat := c.toNat - 48

/-- ASCII digit test (the regex class `\d` used by `strptime`). -/
def isDigitCh (c : Char) : Bool := 48 ≤ c.toNat && c.toNat ≤ 57

/-- Decimal value of a character list, folding from the left.  This is the
embedding of Python's `int()` applied to a digit field. -/
def decVal (l : List Char) : Nat := l.foldl (fun a c => 10 * a + charVal c) 0

/-- Emit the decimal digits of `n`, most significant first.  The first
argument is fuel, making the recursion structural. -/
def toDecGo : Nat → Nat → List Char
  | 0, _ => []
  | f + 1, n => if n < 10 then [Nat.digitChar n] else toDecGo f (n / 10) ++ [Nat.digitChar (n % 10)]

/-- Decimal representation of a natural number. -/
def toDec (n : Nat) : List Char := toDecGo (n + 1) n

/-- Left-pad a character list with `'0'` up to width `k` (numpy zero-pads
years to 4 digits and months to 2). -/
def padLeft (k : Nat) (l : List Char) : List Char :=
  List.replicate (k - l.length) '0' ++ l

/-! ## Year-month values

`np.datetime64` with unit `'M'`: a calendar year-month.  Adding
`np.timedelta64(1,'M')` moves to the next month; `str` /
`np.datetime_as_string(·, unit='M')` prints "YYYY-MM" with the year
zero-padded to 4 digits and the month to 2. -/

/-- A calendar year-month (the model of `np.datetime64[M]`).  A value is
well formed when `1 ≤ month ≤ 12`. -/
structure YM where
  year : Nat
  month : Nat
deriving DecidableEq, Repr

/-- Month validity invariant for `YM`. -/
def YM.valid (ym : YM) : Prop := 1 ≤ ym.month ∧ ym.month ≤ 12

instance (ym : YM) : Decidable ym.valid := by unfold YM.valid; infer_instance

/-- Adding one month (`yearmonth + np.timedelta64(1, 'M')`). -/
def YM.next (ym : YM) : YM :=
  if ym.month ≥ 12 then ⟨ym.year + 1, 1⟩ else ⟨ym.year, ym.month + 1⟩

/-- Adding `n` months. -/
def YM.addMonths (ym : YM) : Nat → YM
  | 0 => ym
  | n + 1 => (ym.addMonths n).next

/-- Total month index, for comparing year-months chronologically. -/
def YM.idx (ym : YM) : Nat := 12 * ym.year + ym.month

/-- Format a year-month as "YYYY-MM" (character list), as
`np.datetime_as_string(·, unit='M')` does. -/
def YM.fmtChars (ym : YM) : List Char :=
  padLeft 4 (toDec ym.year) ++ '-' :: padLeft 2 (toDec ym.month)

/-- Format a year-month as a "YYYY-MM" string. -/
def YM.fmt (ym : YM) : String := ⟨ym.fmtChars⟩

/-! ## Unit conversion and rounding

`convert_units` is the script's function of the same name (lines 62-71).
Note that the temperature branch subtracts 272.15, exactly as the source
does, even though its comment says "Convert temperature from Kelvin to
Celsius" (which would be 273.15).  Cell values are modelled as rationals.
`round4` models `round(·, 4)` applied at the point of storage (line 125):
round to the nearest multiple of 10⁻⁴, ties to even. -/

/-- Unit conversion, translated from `convert_units` in the source:
`temp` subtracts 272.15 from the raw value, `precip` multiplies by 1000,
any other variable name passes the value through. -/
def convert_units (varname : String) (value : ℚ) : ℚ :=
  if varname = "temp" then value - 272.15
  else if varname = "precip" then value * 1000
  else value

/-- Round a rational to the nearest integer, ties to even (the rounding
Python's `round` uses). -/
def roundHalfEven (q : ℚ) : Int :=
  if q - ⌊q⌋ < 1 / 2 then ⌊q⌋
  else if (1 : ℚ) / 2 < q - ⌊q⌋ then ⌊q⌋ + 1
  else if ⌊q⌋ % 2 = 0 then ⌊q⌋ else ⌊q⌋ + 1

/-- Python's `round(q, 4)`: round to 4 decimal places. -/
def round4 (q : ℚ) : ℚ := (roundHalfEven (q * 10000) : ℚ) / 10000

/-! ## Data model

One record of `result_dict`: the script keeps, per unique point ID, an
insertion-ordered dict with the point's name, raw date, raster row/column
(set by the indexing loop, lines 100-110), one "YM-YYYY-MM" entry per band
(band loop, lines 114-127), and finally MATCH_VALUE (lines 131-142).  The
fixed metadata columns (`OBS_NAME`, `OBS_DATE`, `RASTER_ROW`,
`RASTER_COL`) are modelled as structure fields — none of them starts with
"YM-", so the `obyrmonth in v` membership test of line 138 only ever hits
the per-band entries, which we keep as an insertion-ordered association
list. -/

/-- One row of the point file: unique ID (`OBS_NUM`), name (`OBS_NAME`),
raw observation-date string (`OBS_DATE`), and WGS84 coordinates. -/
structure InputPoint where
  obs_num : String
  obs_name : String
  obs_date : String
  x : ℚ
  y : ℚ

/-- The raster: grid dimensions, one cell-value function per band (in band
order), and the affine `raster.index` map from coordinates to a
(row, column) pair.  The affine inversion itself is rasterio library code,
so it is kept abstract. -/
structure Raster where
  height : Nat
  width : Nat
  bands : List (Int → Int → ℚ)
  index : ℚ → ℚ → Int × Int

/-- The user-set configuration variables of the script: `varname`,
`startdate` (parsed from "YYYY-MM"), and `standard_date`. -/
structure Config where
  varname : String
  startdate : YM
  standard_date : Bool

/-- One entry of `result_dict`, keyed by the point's unique ID. -/
structure Rec where
  obs_num : String
  obs_name : String
  obs_date : String
  raster_row : Int
  raster_col : Int
  series : List (String × Option ℚ)
  match_value : Option ℚ
deriving DecidableEq

/-- Python dict assignment `d[k] = v` on an insertion-ordered association
list: overwrite in place if the key exists, else append. -/
def dictSet (k : String) (v : Option ℚ) (d : List (String × Option ℚ)) :
    List (String × Option ℚ) :=
  if d.any (fun p => p.1 == k) then d.map (fun p => if p.1 == k then (k, v) else p)
  else d ++ [(k, v)]

/-- Dict lookup combined with the `in` test of line 138: the value stored
under `key` if present (which may itself be `none`), else `none`. -/
def lookupYM (key : String) : List (String × Option ℚ) → Option ℚ
  | [] => none
  | (k, v) :: rest => if k == key then v else lookupYM key rest

/-! ## TemporalSampler: the band loop (lines 114-127)

For each band (outer loop) and each record (inner loop): if the record's
cell address is outside the grid, store `None` under this band's
"YM-YYYY-MM" key; else read the cell, convert units, round to 4 decimals
and store.  After each band `yearmonth` advances by one month. -/

/-- Out-of-grid test of lines 120-121:
`rrow < 0 or rrow >= height or rcol < 0 or rcol >= width`. -/
def outOfGrid (h w : Nat) (row col : Int) : Prop :=
  row < 0 ∨ (h : Int) ≤ row ∨ col < 0 ∨ (w : Int) ≤ col

instance (h w : Nat) (row col : Int) : Decidable (outOfGrid h w row col) := by
  unfold outOfGrid; infer_instance

/-- Process one record for one band: lines 117-126 for a single `k, v`. -/
def sampleRecord (h w : Nat) (varname : String) (band : Int → Int → ℚ)
    (label : String) (r : Rec) : Rec :=
  if outOfGrid h w r.raster_row r.raster_col then
    { r with series := dictSet ("YM-" ++ label) none r.series }
  else
    let v := round4 (convert_units varname (band r.raster_row r.raster_col))
    { r with series := dictSet ("YM-" ++ label) (some v) r.series }

/-- The band loop of lines 116-127: bands outermost, records innermost,
`yearmonth` advanced once per band. -/
def sampleLoop (h w : Nat) (varname : String) :
    List (Int → Int → ℚ) → YM → List Rec → List Rec
  | [], _, recs => recs
  | b :: bs, ym, recs =>
    sampleLoop h w varname bs ym.next (recs.map (sampleRecord h w varname b ym.fmt))

/-- The effect of the whole band loop on a single record (the loop treats
records independently, see `sampleLoop_map`). -/
def sampleFold (h w : Nat) (varname : String) :
    List (Int → Int → ℚ) → YM → Rec → Rec
  | [], _, r => r
  | b :: bs, ym, r => sampleFold h w varname bs ym.next (sampleRecord h w varname b ym.fmt r)

/-! ## DateResolver: strptime and the date loop (lines 131-142) -/

/-- Python whitespace as stripped by `str.strip()` (ASCII part; `strip`
also removes some Unicode spaces, which no claim exercises). -/
def isPySpace (c : Char) : Bool :=
  c.toNat = 32 || c.toNat = 9 || c.toNat = 10 || c.toNat = 13 || c.toNat = 11 || c.toNat = 12

/-- Python `str.strip()`: drop whitespace from both ends. -/
def pyStrip (s : List Char) : List Char :=
  ((s.dropWhile isPySpace).reverse.dropWhile isPySpace).reverse

/-- Split a character list on `'/'` (the literal separators of the
`%m/%d/%Y` pattern). -/
def splitSlash : List Char → List (List Char)
  | [] => [[]]
  | c :: rest =>
    if c = '/' then [] :: splitSlash rest
    else
      match splitSlash rest with
      | [] => [[c]]
      | g :: gs => (c :: g) :: gs

/-- The `%m` field of CPython strptime, regex `1[0-2]|0[1-9]|[1-9]`:
one or two digits with value 1..12. -/
def monthFieldOK (ms : List Char) : Bool :=
  ms.all isDigitCh && (ms.length = 1 || ms.length = 2)
    && 1 ≤ decVal ms && decVal ms ≤ 12

/-- The `%d` field of CPython strptime, regex
`3[0-1]|[1-2]\d|0[1-9]|[1-9]| [1-9]`: one or two digits with value 1..31,
or a space followed by a nonzero digit. -/
def dayFieldOK (ds : List Char) : Bool :=
  match ds with
  | [' ', c] => isDigitCh c && c ≠ '0'
  | _ => ds.all isDigitCh && (ds.length = 1 || ds.length = 2)
      && 1 ≤ decVal ds && decVal ds ≤ 31

/-- The `%Y` field of CPython strptime, regex `\d\d\d\d`: exactly four
digits. -/
def yearFieldOK (ys : List Char) : Bool :=
  ys.all isDigitCh && ys.length = 4

/-- Gregorian leap-year rule used by `datetime.date`. -/
def leapYear (y : Nat) : Bool :=
  y % 4 = 0 && (y % 100 ≠ 0 || y % 400 = 0)

/-- Days in a month, as validated by the `datetime.date` constructor. -/
def daysInMonth (y m : Nat) : Nat :=
  match m with
  | 1 => 31 | 2 => if leapYear y then 29 else 28 | 3 => 31 | 4 => 30
  | 5 => 31 | 6 => 30 | 7 => 31 | 8 => 31 | 9 => 30 | 10 => 31
  | 11 => 30 | 12 => 31 | _ => 0

/-- CPython `datetime.strptime(s, "%m/%d/%Y").date()` as a partial
function: the pattern match (field regexes joined by literal slashes, the
whole string consumed) followed by the `datetime` constructor's
validation (year ≥ 1, day within the month).  Returns
`(year, month, day)`. -/
def parseMDY (s : List Char) : Option (Nat × Nat × Nat) :=
  match splitSlash s with
  | [ms, ds, ys] =>
    if monthFieldOK ms && dayFieldOK ds && yearFieldOK ys then
      if 1 ≤ decVal ys && decVal ds ≤ daysInMonth (decVal ys) (decVal ms) then
        some (decVal ys, decVal ms, decVal ds)
      else none
    else none
  | _ => none

/-- Date resolution of lines 131-137, producing the "YYYY-MM" key (before
the "YM-" prefix is attached) or the uncaught exception's message.
With `standard_date = False` the raw date is stripped and parsed with
`%m/%d/%Y`; any parse failure is an uncaught `ValueError` (Python's exact
message text varies with the failure shape; no theorem depends on it).
With `standard_date = True` the raw date string is passed to
`np.datetime_as_string` unconverted (line 136-137); that function requires
a `datetime64` input and raises `TypeError: input must have type NumPy
datetime` for a `str`, so this branch always fails on string dates. -/
def resolveDate (standard_date : Bool) (raw : String) : Except String String :=
  if standard_date = false then
    match parseMDY (pyStrip raw.data) with
    | some (y, m, _) => Except.ok (YM.fmt ⟨y, m⟩)
    | none => Except.error ("ValueError: time data " ++ raw
        ++ " does not match format %m/%d/%Y")
  else
    Except.error "TypeError: input must have type NumPy datetime"

/-- The date-matching loop of lines 131-142: for each record in order,
resolve its raw date; an unresolvable date raises (aborting the whole
run), otherwise MATCH_VALUE becomes the series entry stored under
"YM-YYYY-MM" if that key exists, else `None`. -/
def matchLoop (standard_date : Bool) : List Rec → Except String (List Rec)
  | [] => Except.ok []
  | r :: rs =>
    match resolveDate standard_date r.obs_date with
    | Except.error e => Except.error e
    | Except.ok ymStr =>
      match matchLoop standard_date rs with
      | Except.error e => Except.error e
      | Except.ok rest =>
        Except.ok ({ r with match_value := lookupYM ("YM-" ++ ymStr) r.series } :: rest)

/-! ## The whole run (lines 74-172) as a trace of effects

The module-level program: create the output folder, read the point file,
run the two fatal precondition checks (lines 83-93; note `sys.exit()` is
called with no argument, which is exit status 0), index the points, sample
the bands, resolve dates, assemble and write the CSV.  An uncaught
exception truncates the trace with `raiseExc`. -/

/-- Observable steps of the run, in order.  `writeCSV` carries the final
records; the output file name (which embeds the wall-clock date) is not
modelled. -/
inductive Effect where
  | mkOutputDir : Effect
  | readPointFile : Effect
  | printMsg : String → Effect
  | exitProg : Nat → Effect
  | openRaster : Effect
  | plotFig : Effect
  | writeCSV : List Rec → Effect
  | raiseExc : String → Effect
deriving DecidableEq

/-- Message printed on the duplicate-ID precondition failure (line 86). -/
def failDupMsg : String :=
  "\n FAIL: unique ID column in the input file contains duplicate values, cannot proceed."

/-- Message printed on the invalid-variable-name precondition failure
(line 92). -/
def failVarMsg : String :=
  "\n FAIL: variable name must be set to either \"temp\" or \"precip\""

/-- Final success message (line 172; output path elided). -/
def doneMsg (rows vals : Nat) (vn : String) : String :=
  "\n Done, wrote " ++ toString rows ++ " rows with " ++ toString vals
    ++ " values for " ++ vn ++ " data"

/-- Pandas `Series.is_unique` on the unique-ID column: no value occurs
twice. -/
def pandasIsUnique : List String → Bool
  | [] => true
  | x :: xs => !(xs.contains x) && pandasIsUnique xs

/-- The indexing loop of lines 100-110 for one point: compute the raster
row/column from the coordinates and set up the record. -/
def initRec (raster : Raster) (p : InputPoint) : Rec :=
  { obs_num := p.obs_num, obs_name := p.obs_name, obs_date := p.obs_date,
    raster_row := (raster.index p.x p.y).1, raster_col := (raster.index p.x p.y).2,
    series := [], match_value := none }

/-- Records as they stand after the indexing loop and the band loop. -/
def pipelineRecs (cfg : Config) (points : List InputPoint) (raster : Raster) : List Rec :=
  sampleLoop raster.height raster.width cfg.varname raster.bands cfg.startdate
    (points.map (initRec raster))

/-- The module-level program as a trace of effects.  Ordering follows the
source: output folder and point file first; the duplicate-ID check (line
83) then the variable-name check (line 89), each printing and calling
`sys.exit()` (exit status 0) before any raster I/O; then the two
`rasterio.open` passes (indexing, sampling), the date loop (whose first
parse failure is an uncaught exception), `next(iter(result_dict))` (which
raises StopIteration when there are no points), the plot pass, the CSV
write, and the final message. -/
def runProgram (cfg : Config) (points : List InputPoint) (raster : Raster) : List Effect :=
  Effect.mkOutputDir :: Effect.readPointFile ::
  (if pandasIsUnique (points.map InputPoint.obs_num) = false then
    [Effect.printMsg failDupMsg, Effect.exitProg 0]
  else if ¬ (cfg.varname = "temp" ∨ cfg.varname = "precip") then
    [Effect.printMsg failVarMsg, Effect.exitProg 0]
  else
    Effect.openRaster :: Effect.openRaster ::
    (match matchLoop cfg.standard_date (pipelineRecs cfg points raster) with
     | Except.error e => [Effect.raiseExc e]
     | Except.ok recs =>
       match recs with
       | [] => [Effect.raiseExc "StopIteration"]
       | r :: rest =>
         [Effect.openRaster, Effect.plotFig, Effect.writeCSV (r :: rest),
          Effect.printMsg (doneMsg ((r :: rest).length + 1) (r.series.length + 6) cfg.varname)]))

/-- The value the band loop stores for one record and one band (None when
the cell address is out of grid, otherwise the converted, rounded cell
value). -/
def cellValue (h w : Nat) (varname : String) (band : Int → Int → ℚ)
    (row col : Int) : Option ℚ :=
  if outOfGrid h w row col then none
  else some (round4 (convert_units varname (band row col)))

/-- Entry list the band loop appends for a record whose cell address is
(row, col), bands taken in order from `ym`. -/
def expectedEntries (h w : Nat) (varname : String) (row col : Int) :
    List (Int → Int → ℚ) → YM → List (String × Option ℚ)
  | [], _ => []
  | b :: bs, ym =>
    ("YM-" ++ ym.fmt, cellValue h w varname b row col)
      :: expectedEntries h w varname row col bs ym.next

/-- Joining groups with slashes, the inverse of `splitSlash`. -/
def joinSlash : List (List Char) → List Char
  | [] => []
  | [g] => g
  | g :: gs => g ++ '/' :: joinSlash gs

/-! ## Concrete fixtures used by witnesses and counterexamples -/

/-- Constant test band. -/
def bandW : Int → Int → ℚ := fun _ _ => 5

/-- A 1×1 one-band raster with the trivial index map. -/
def rasterC : Raster := ⟨1, 1, [fun _ _ => 0], fun _ _ => (0, 0)⟩

/-- Non-standard-date configuration with start period 2018-01. -/
def cfgNS : Config := ⟨"temp", ⟨2018, 1⟩, false⟩

/-- Two input points sharing the unique ID "P1". -/
def dupPoints : List InputPoint :=
  [⟨"P1", "a", "01/01/2018", 0, 0⟩, ⟨"P1", "b", "01/01/2018", 0, 0⟩]

/-- A single well-formed input point. -/
def plainPoint : InputPoint := ⟨"P9", "a", "01/01/2018", 0, 0⟩

/-- An input point whose date is ISO-formatted, not MM/DD/YYYY. -/
def cexPoint : InputPoint := ⟨"P1", "a", "2019-03-15", 0, 0⟩

/-- An input point whose date matches no date format at all. -/
def badDatePoint : InputPoint := ⟨"P8", "b", "not-a-date", 0, 0⟩

/-- A record whose cell address (row -1) is outside every grid. -/
def oobRec : Rec := ⟨"P2", "n", "01/15/2018", -1, 0, [], none⟩

/-- An in-grid record with an empty series. -/
def recIn : Rec := ⟨"P6", "n", "01/01/2018", 0, 0, [], none⟩

/-- A record holding a stored value under the key its date resolves to. -/
def matchRec : Rec := ⟨"P3", "n", "03/15/2019", 0, 0, [("YM-2019-03", some 7)], none⟩

/-- A record whose resolved date key is absent from its series. -/
def rangeRec : Rec := ⟨"P4", "n", "03/15/2019", 0, 0, [("YM-2018-01", some 1)], none⟩

/-! ## Lemmas about the embedding -/

theorem charVal_digitChar {d : Nat} (h : d < 10) : charVal (Nat.digitChar d) = d := by
  interval_cases d <;> rfl

theorem decVal_append (xs : List Char) (c : Char) :
    decVal (xs ++ [c]) = 10 * decVal xs + charVal c := by
  simp [decVal, List.foldl_append]

theorem toDecGo_decVal : ∀ f n, n < 10 ^ f → decVal (toDecGo f n) = n := by
  intro f
  induction f with
  | zero => intro n h; simp at h; simp [h, toDecGo, decVal]
  | succ f ih =>
    intro n h
    by_cases h10 : n < 10
    · simp [toDecGo, h10, decVal, charVal_digitChar h10]
    · have hdiv : n / 10 < 10 ^ f := by
        rw [Nat.div_lt_iff_lt_mul (by norm_num)]
        calc n < 10 ^ (f + 1) := h
        _ = 10 ^ f * 10 := by ring
      simp only [toDecGo, if_neg h10]
      rw [decVal_append, ih _ hdiv, charVal_digitChar (Nat.mod_lt _ (by norm_num))]
      omega

theorem decVal_toDec (n : Nat) : decVal (toDec n) = n := by
  apply toDecGo_decVal
  calc n < 10 ^ n := Nat.lt_pow_self (by norm_num) n
  _ ≤ 10 ^ (n + 1) := Nat.pow_le_pow_right (by norm_num) (Nat.le_succ n)

theorem toDecGo_length : ∀ f n k, 0 < k → n < 10 ^ k → (toDecGo f n).length ≤ k := by
  intro f
  induction f with
  | zero => intro n k hk _; simp [toDecGo]
  | succ f ih =>
    intro n k hk h
    by_cases h10 : n < 10
    · simp [toDecGo, h10]; omega
    · have hk2 : 2 ≤ k := by
        by_contra hlt
        have : k = 1 := by omega
        subst this
        simp at h; omega
      have hdiv : n / 10 < 10 ^ (k - 1) := by
        rw [Nat.div_lt_iff_lt_mul (by norm_num)]
        calc n < 10 ^ k := h
        _ = 10 ^ (k - 1) * 10 := by
              rw [← Nat.pow_succ]
              congr 1
              omega
      simp only [toDecGo, if_neg h10, List.length_append, List.length_cons, List.length_nil]
      have := ih (n / 10) (k - 1) (by omega) hdiv
      omega

theorem toDec_length {n k : Nat} (hk : 0 < k) (h : n < 10 ^ k) : (toDec n).length ≤ k :=
  toDecGo_length _ n k hk h

theorem decVal_replicate_zero (j : Nat) (xs : List Char) :
    decVal (List.replicate j '0' ++ xs) = decVal xs := by
  induction j with
  | zero => simp
  | succ j ih =>
    have : List.replicate (j + 1) '0' ++ xs = '0' :: (List.replicate j '0' ++ xs) := by
      simp [List.replicate_succ]
    rw [this]
    simp only [decVal, List.foldl_cons] at *
    have hz : 10 * 0 + charVal '0' = 0 := by rfl
    rw [hz]
    exact ih

theorem decVal_padLeft (k : Nat) (l : List Char) : decVal (padLeft k l) = decVal l :=
  decVal_replicate_zero _ _

theorem padLeft_length {k : Nat} {l : List Char} (h : l.length ≤ k) :
    (padLeft k l).length = k := by
  simp [padLeft]
  omega

theorem YM.valid_next {ym : YM} (h : ym.valid) : ym.next.valid := by
  obtain ⟨h1, h2⟩ := h
  simp only [YM.next, YM.valid]
  split
  · exact ⟨le_refl 1, by norm_num⟩
  · constructor
    · show 1 ≤ ym.month + 1
      omega
    · show ym.month + 1 ≤ 12
      omega

theorem YM.idx_next {ym : YM} (h : ym.valid) : ym.next.idx = ym.idx + 1 := by
  obtain ⟨h1, h2⟩ := h
  simp only [YM.next, YM.idx]
  split
  · show 12 * (ym.year + 1) + 1 = 12 * ym.year + ym.month + 1
    omega
  · show 12 * ym.year + (ym.month + 1) = 12 * ym.year + ym.month + 1
    omega

theorem YM.valid_addMonths {ym : YM} (h : ym.valid) (n : Nat) : (ym.addMonths n).valid := by
  induction n with
  | zero => exact h
  | succ n ih => exact YM.valid_next ih

theorem YM.idx_addMonths {ym : YM} (h : ym.valid) (n : Nat) :
    (ym.addMonths n).idx = ym.idx + n := by
  induction n with
  | zero => rfl
  | succ n ih =>
    have := YM.idx_next (YM.valid_addMonths h n)
    unfold YM.addMonths
    omega

theorem YM.fmt_inj {a b : YM} (ha : a.month ≤ 99) (hb : b.month ≤ 99)
    (h : a.fmt = b.fmt) : a = b := by
  have hch : a.fmtChars = b.fmtChars := by
    unfold YM.fmt at h
    injection h
  unfold YM.fmtChars at hch
  have hla : (padLeft 2 (toDec a.month)).length = 2 :=
    padLeft_length (toDec_length (by norm_num) (by omega : a.month < 10 ^ 2))
  have hlb : (padLeft 2 (toDec b.month)).length = 2 :=
    padLeft_length (toDec_length (by norm_num) (by omega : b.month < 10 ^ 2))
  have hlen : ('-' :: padLeft 2 (toDec a.month)).length
      = ('-' :: padLeft 2 (toDec b.month)).length := by
    simp [hla, hlb]
  obtain ⟨h1, h2⟩ := List.append_inj' hch hlen
  have hy : a.year = b.year := by
    have := congrArg decVal h1
    rwa [decVal_padLeft, decVal_padLeft, decVal_toDec, decVal_toDec] at this
  have hm : a.month = b.month := by
    have h2' : padLeft 2 (toDec a.month) = padLeft 2 (toDec b.month) := by
      injection h2
    have := congrArg decVal h2'
    rwa [decVal_padLeft, decVal_padLeft, decVal_toDec, decVal_toDec] at this
  cases a; cases b
  simp_all

theorem YM.fmt_addMonths_ne {ym : YM} (h : ym.valid) {i j : Nat} (hij : i ≠ j) :
    (ym.addMonths i).fmt ≠ (ym.addMonths j).fmt := by
  intro heq
  have hi := YM.valid_addMonths h i
  have hj := YM.valid_addMonths h j
  have hbi : (ym.addMonths i).month ≤ 99 := le_trans hi.2 (by norm_num)
  have hbj : (ym.addMonths j).month ≤ 99 := le_trans hj.2 (by norm_num)
  have := YM.fmt_inj hbi hbj heq
  have hidx := congrArg YM.idx this
  rw [YM.idx_addMonths h i, YM.idx_addMonths h j] at hidx
  omega

theorem dictSet_fresh {k : String} {d : List (String × Option ℚ)}
    (h : ∀ p ∈ d, p.1 ≠ k) (v : Option ℚ) : dictSet k v d = d ++ [(k, v)] := by
  unfold dictSet
  rw [if_neg]
  simp only [List.any_eq_true, beq_iff_eq, not_exists, not_and]
  intro p hp
  simpa using h p hp

theorem dictSet_values_none {k : String} {d : List (String × Option ℚ)}
    (h : ∀ p ∈ d, p.2 = none) : ∀ p ∈ dictSet k none d, p.2 = none := by
  unfold dictSet
  split
  · intro p hp
    simp only [List.mem_map] at hp
    obtain ⟨q, hq, hpq⟩ := hp
    by_cases hk : q.1 == k
    · simp [hk] at hpq
      simp [← hpq]
    · simp [hk] at hpq
      rw [← hpq]
      exact h q hq
  · intro p hp
    rcases List.mem_append.mp hp with hin | hin
    · exact h p hin
    · simp at hin
      simp [hin]

theorem sampleRecord_eq (h w : Nat) (varname : String) (band : Int → Int → ℚ)
    (label : String) (r : Rec) :
    sampleRecord h w varname band label r
      = { r with series := dictSet ("YM-" ++ label) (cellValue h w varname band r.raster_row r.raster_col) r.series } := by
  unfold sampleRecord cellValue
  split <;> rfl

theorem sampleRecord_meta (h w : Nat) (varname : String) (band : Int → Int → ℚ)
    (label : String) (r : Rec) :
    (sampleRecord h w varname band label r).obs_num = r.obs_num
    ∧ (sampleRecord h w varname band label r).obs_name = r.obs_name
    ∧ (sampleRecord h w varname band label r).obs_date = r.obs_date
    ∧ (sampleRecord h w varname band label r).raster_row = r.raster_row
    ∧ (sampleRecord h w varname band label r).raster_col = r.raster_col
    ∧ (sampleRecord h w varname band label r).match_value = r.match_value := by
  rw [sampleRecord_eq]
  exact ⟨rfl, rfl, rfl, rfl, rfl, rfl⟩

/-- The band loop processes records independently: running `sampleLoop`
over a record list is mapping `sampleFold` over it. -/
theorem sampleLoop_map (h w : Nat) (varname : String) :
    ∀ (bands : List (Int → Int → ℚ)) (ym : YM) (recs : List Rec),
      sampleLoop h w varname bands ym recs = recs.map (sampleFold h w varname bands ym) := by
  intro bands
  induction bands with
  | nil => intro ym recs; simp [sampleLoop, sampleFold]
  | cons b bs ih =>
    intro ym recs
    simp only [sampleLoop, ih, List.map_map]
    rfl

theorem sampleFold_meta (h w : Nat) (varname : String) :
    ∀ (bands : List (Int → Int → ℚ)) (ym : YM) (r : Rec),
      (sampleFold h w varname bands ym r).obs_num = r.obs_num
      ∧ (sampleFold h w varname bands ym r).obs_name = r.obs_name
      ∧ (sampleFold h w varname bands ym r).obs_date = r.obs_date
      ∧ (sampleFold h w varname bands ym r).raster_row = r.raster_row
      ∧ (sampleFold h w varname bands ym r).raster_col = r.raster_col
      ∧ (sampleFold h w varname bands ym r).match_value = r.match_value := by
  intro bands
  induction bands with
  | nil => intro ym r; exact ⟨rfl, rfl, rfl, rfl, rfl, rfl⟩
  | cons b bs ih =>
    intro ym r
    have h1 := ih ym.next (sampleRecord h w varname b ym.fmt r)
    have h2 := sampleRecord_meta h w varname b ym.fmt r
    unfold sampleFold
    exact ⟨h1.1.trans h2.1, h1.2.1.trans h2.2.1, h1.2.2.1.trans h2.2.2.1,
      h1.2.2.2.1.trans h2.2.2.2.1, h1.2.2.2.2.1.trans h2.2.2.2.2.1,
      h1.2.2.2.2.2.trans h2.2.2.2.2.2⟩

theorem expectedEntries_length (h w : Nat) (varname : String) (row col : Int) :
    ∀ (bands : List (Int → Int → ℚ)) (ym : YM),
      (expectedEntries h w varname row col bands ym).length = bands.length := by
  intro bands
  induction bands with
  | nil => intro ym; rfl
  | cons b bs ih => intro ym; simp [expectedEntries, ih]

/-- Attaching the "YM-" column prefix is injective. -/
theorem ymPrefix_inj {a b : String} (h : ("YM-" ++ a : String) = "YM-" ++ b) : a = b := by
  have hd : ("YM-" ++ a : String).data = ("YM-" ++ b : String).data := by rw [h]
  simp only [String.data_append] at hd
  have := List.append_cancel_left hd
  cases a; cases b
  exact congrArg String.mk this

theorem YM.addMonths_next (ym : YM) : ∀ n, ym.next.addMonths n = ym.addMonths (n + 1) := by
  intro n
  induction n with
  | zero => rfl
  | succ n ih => simp only [YM.addMonths, ih]

/-- Main shape lemma for the band loop on one record: when the start
year-month is well formed and none of the upcoming period keys already
occurs in the record's series, the loop appends exactly one entry per
band, in band order. -/
theorem sampleFold_series (h w : Nat) (varname : String) :
    ∀ (bands : List (Int → Int → ℚ)) (ym : YM) (r : Rec), ym.valid →
      (∀ j, ("YM-" ++ (ym.addMonths j).fmt) ∉ r.series.map Prod.fst) →
      (sampleFold h w varname bands ym r).series
        = r.series ++ expectedEntries h w varname r.raster_row r.raster_col bands ym := by
  intro bands
  induction bands with
  | nil => intro ym r _ _; simp [sampleFold, expectedEntries]
  | cons b bs ih =>
    intro ym r hv hfresh
    have hkey : ∀ p ∈ r.series, p.1 ≠ ("YM-" ++ ym.fmt) := by
      intro p hp heq
      exact hfresh 0 (by simp only [List.mem_map]; exact ⟨p, hp, heq⟩)
    have hrec : (sampleRecord h w varname b ym.fmt r).series
        = r.series ++ [("YM-" ++ ym.fmt, cellValue h w varname b r.raster_row r.raster_col)] := by
      rw [sampleRecord_eq]
      exact dictSet_fresh hkey _
    have hmeta := sampleRecord_meta h w varname b ym.fmt r
    have hfresh' : ∀ j, ("YM-" ++ (ym.next.addMonths j).fmt)
        ∉ (sampleRecord h w varname b ym.fmt r).series.map Prod.fst := by
      intro j
      rw [hrec, YM.addMonths_next]
      simp only [List.map_append, List.mem_append, List.map_cons, List.map_nil,
        List.mem_singleton, not_or]
      constructor
      · exact hfresh (j + 1)
      · intro heq
        have hne := YM.fmt_addMonths_ne hv (by omega : j + 1 ≠ 0)
        simp only [YM.addMonths] at hne
        exact hne (ymPrefix_inj heq)
    have := ih ym.next (sampleRecord h w varname b ym.fmt r) (YM.valid_next hv) hfresh'
    unfold sampleFold
    rw [this, hrec, hmeta.2.2.2.1, hmeta.2.2.2.2.1]
    simp [expectedEntries]

theorem expectedEntries_keys (h w : Nat) (varname : String) (row col : Int) :
    ∀ (bands : List (Int → Int → ℚ)) (ym : YM),
      (expectedEntries h w varname row col bands ym).map Prod.fst
        = (List.range bands.length).map (fun i => "YM-" ++ (ym.addMonths i).fmt) := by
  intro bands
  induction bands with
  | nil => intro ym; rfl
  | cons b bs ih =>
    intro ym
    simp only [expectedEntries, List.map_cons, List.length_cons, List.range_succ_eq_map,
      List.map_map, ih]
    congr 1
    apply List.map_congr_left
    intro i _
    simp only [Function.comp_apply, YM.addMonths_next]

theorem expectedEntries_getElem (h w : Nat) (varname : String) (row col : Int) :
    ∀ (bands : List (Int → Int → ℚ)) (ym : YM) (i : Nat) (hi : i < bands.length)
      (hi' : i < (expectedEntries h w varname row col bands ym).length),
      (expectedEntries h w varname row col bands ym).get ⟨i, hi'⟩
        = ("YM-" ++ (ym.addMonths i).fmt, cellValue h w varname (bands.get ⟨i, hi⟩) row col) := by
  intro bands
  induction bands with
  | nil => intro ym i hi; simp at hi
  | cons b bs ih =>
    intro ym i hi hi'
    cases i with
    | zero => rfl
    | succ i =>
      have hib : i < bs.length := by simpa using hi
      have hie : i < (expectedEntries h w varname row col bs ym.next).length := by
        rw [expectedEntries_length]; exact hib
      have := ih ym.next i hib hie
      simp only [expectedEntries, List.get_cons_succ, this, YM.addMonths_next]

/-- On an out-of-grid record the band loop only ever stores `None`,
whatever the keys involved. -/
theorem sampleFold_allNone (h w : Nat) (varname : String) :
    ∀ (bands : List (Int → Int → ℚ)) (ym : YM) (r : Rec),
      outOfGrid h w r.raster_row r.raster_col →
      (∀ p ∈ r.series, p.2 = none) →
      ∀ p ∈ (sampleFold h w varname bands ym r).series, p.2 = none := by
  intro bands
  induction bands with
  | nil => intro ym r _ hnone; exact hnone
  | cons b bs ih =>
    intro ym r hoob hnone
    have hmeta := sampleRecord_meta h w varname b ym.fmt r
    have hser : (sampleRecord h w varname b ym.fmt r).series
        = dictSet ("YM-" ++ ym.fmt) none r.series := by
      unfold sampleRecord
      rw [if_pos hoob]
    have hnone' : ∀ p ∈ (sampleRecord h w varname b ym.fmt r).series, p.2 = none := by
      rw [hser]
      exact dictSet_values_none hnone
    have hoob' : outOfGrid h w (sampleRecord h w varname b ym.fmt r).raster_row
        (sampleRecord h w varname b ym.fmt r).raster_col := by
      rw [hmeta.2.2.2.1, hmeta.2.2.2.2.1]
      exact hoob
    exact ih ym.next _ hoob' hnone'

theorem lookupYM_all_none {d : List (String × Option ℚ)}
    (h : ∀ p ∈ d, p.2 = none) (key : String) : lookupYM key d = none := by
  induction d with
  | nil => rfl
  | cons p rest ih =>
    obtain ⟨k, v⟩ := p
    unfold lookupYM
    split
    · exact h (k, v) (by simp)
    · exact ih fun q hq => h q (List.mem_cons_of_mem _ hq)

theorem lookupYM_not_mem {d : List (String × Option ℚ)} {key : String}
    (h : key ∉ d.map Prod.fst) : lookupYM key d = none := by
  induction d with
  | nil => rfl
  | cons p rest ih =>
    obtain ⟨k, v⟩ := p
    simp only [List.map_cons, List.mem_cons, not_or] at h
    have hkk : ¬ (k == key) = true := by
      simp only [beq_iff_eq]
      exact fun heq => h.1 heq.symm
    unfold lookupYM
    rw [if_neg hkk]
    exact ih h.2

theorem lookupYM_eq_lookup (key : String) (d : List (String × Option ℚ)) :
    lookupYM key d = (d.lookup key).join := by
  induction d with
  | nil => rfl
  | cons p rest ih =>
    obtain ⟨k, v⟩ := p
    by_cases hk : k = key
    · subst hk
      simp [lookupYM, List.lookup]
    · have hkk : (key == k) = false := beq_eq_false_iff_ne.mpr (Ne.symm hk)
      have hk2 : ¬ (k == key) = true := by
        simp only [beq_iff_eq]
        exact hk
      unfold lookupYM List.lookup
      rw [if_neg hk2, hkk]
      exact ih

/-- One step of the date-matching loop on a single record, when its date
resolves. -/
theorem matchLoop_singleton {std : Bool} {r : Rec} {ymStr : String}
    (h : resolveDate std r.obs_date = Except.ok ymStr) :
    matchLoop std [r] = Except.ok [{ r with match_value := lookupYM ("YM-" ++ ymStr) r.series }] := by
  unfold matchLoop
  rw [h]
  rfl

/-! ## Lemmas about `str.strip` and the `%m/%d/%Y` parse -/

theorem dropWhile_append_of_all {p : Char → Bool} :
    ∀ (l1 l2 : List Char), (∀ c ∈ l1, p c = true) →
      (l1 ++ l2).dropWhile p = l2.dropWhile p := by
  intro l1
  induction l1 with
  | nil => intro l2 _; rfl
  | cons c t ih =>
    intro l2 hall
    have hc : p c = true := hall c (by simp)
    simp only [List.cons_append, List.dropWhile_cons, hc, if_true]
    exact ih l2 fun x hx => hall x (by simp [hx])

theorem dropWhile_cons_of_false {p : Char → Bool} {c : Char} (l : List Char)
    (hc : p c = false) : (c :: l).dropWhile p = c :: l := by
  simp [List.dropWhile_cons, hc]

/-- Stripping a whitespace-padded list whose core starts and ends with
non-whitespace returns exactly the core. -/
theorem pyStrip_pad {pre post : List Char}
    (hpre : ∀ c ∈ pre, isPySpace c = true) (hpost : ∀ c ∈ post, isPySpace c = true)
    {x z : Char} (mid : List Char) (hx : isPySpace x = false) (hz : isPySpace z = false) :
    pyStrip (pre ++ (x :: mid ++ [z]) ++ post) = x :: mid ++ [z] := by
  unfold pyStrip
  have h1 : (pre ++ (x :: mid ++ [z]) ++ post).dropWhile isPySpace
      = ((x :: mid ++ [z]) ++ post).dropWhile isPySpace := by
    rw [List.append_assoc]
    exact dropWhile_append_of_all pre _ hpre
  have h2 : ((x :: mid ++ [z]) ++ post).dropWhile isPySpace = x :: (mid ++ [z] ++ post) := by
    simp only [List.cons_append]
    rw [dropWhile_cons_of_false _ hx]
  rw [h1, h2]
  have h3 : (x :: (mid ++ [z] ++ post)).reverse = post.reverse ++ (z :: (mid.reverse ++ [x])) := by
    simp
  rw [h3, dropWhile_append_of_all post.reverse _ (by intro c hc; exact hpost c (by simpa using hc)),
    dropWhile_cons_of_false _ hz]
  simp

theorem digit_not_space {c : Char} (h : isDigitCh c = true) : isPySpace c = false := by
  unfold isDigitCh at h
  unfold isPySpace
  simp only [Bool.and_eq_true, decide_eq_true_eq] at h
  simp only [Bool.or_eq_false_iff, decide_eq_false_iff_not]
  omega

/-- Splitting on slashes never yields an empty group list. -/
theorem splitSlash_ne_nil : ∀ s : List Char, splitSlash s ≠ [] := by
  intro s
  cases s with
  | nil => simp [splitSlash]
  | cons c rest =>
    unfold splitSlash
    split
    · simp
    · split <;> simp

theorem joinSlash_splitSlash : ∀ s : List Char, joinSlash (splitSlash s) = s := by
  intro s
  induction s with
  | nil => rfl
  | cons c rest ih =>
    unfold splitSlash
    split
    · rename_i hc
      subst hc
      rcases hrest : splitSlash rest with _ | ⟨g, gs⟩
      · exact absurd hrest (splitSlash_ne_nil rest)
      · rw [hrest] at ih
        cases gs with
        | nil => simpa [joinSlash] using ih
        | cons g2 gs2 => simpa [joinSlash] using ih
    · rcases hrest : splitSlash rest with _ | ⟨g, gs⟩
      · exact absurd hrest (splitSlash_ne_nil rest)
      · rw [hrest] at ih
        cases gs with
        | nil => simpa [joinSlash] using ih
        | cons g2 gs2 => simpa [joinSlash] using ih

/-- A successful `%m/%d/%Y` parse exposes the three fields. -/
theorem parseMDY_shape {s : List Char} {y m d : Nat} (h : parseMDY s = some (y, m, d)) :
    ∃ ms ds ys, splitSlash s = [ms, ds, ys]
      ∧ monthFieldOK ms = true ∧ dayFieldOK ds = true ∧ yearFieldOK ys = true
      ∧ y = decVal ys ∧ m = decVal ms ∧ d = decVal ds := by
  unfold parseMDY at h
  split at h
  · rename_i ms ds ys heq
    refine ⟨ms, ds, ys, heq, ?_⟩
    split at h
    · split at h
      · rename_i hfields _
        simp only [Bool.and_eq_true] at hfields
        simp only [Option.some.injEq, Prod.mk.injEq] at h
        exact ⟨hfields.1.1, hfields.1.2, hfields.2, h.1.symm, h.2.1.symm, h.2.2.symm⟩
      · exact absurd h (by simp)
    · exact absurd h (by simp)
  · exact absurd h (by simp)

/-- A string that parses with `%m/%d/%Y` starts with a digit and ends
with a digit: stripping it changes nothing, and stripping any
whitespace-padded variant recovers it exactly. -/
theorem parseMDY_sandwich {s : List Char} {y m d : Nat} (h : parseMDY s = some (y, m, d)) :
    ∃ x mid z, s = x :: mid ++ [z] ∧ isDigitCh x = true ∧ isDigitCh z = true := by
  obtain ⟨ms, ds, ys, hsplit, hm, _, hy, _⟩ := parseMDY_shape h
  have hs : s = joinSlash [ms, ds, ys] := by
    rw [← hsplit, joinSlash_splitSlash]
  have hsj : s = ms ++ '/' :: (ds ++ '/' :: ys) := by
    simpa [joinSlash] using hs
  unfold monthFieldOK at hm
  simp only [Bool.and_eq_true, List.all_eq_true, Bool.or_eq_true, decide_eq_true_eq] at hm
  unfold yearFieldOK at hy
  simp only [Bool.and_eq_true, List.all_eq_true, decide_eq_true_eq] at hy
  rcases hys4 : ys with _ | ⟨a, ys1⟩
  · rw [hys4] at hy; simp at hy
  rcases hys3 : ys1 with _ | ⟨b, ys2⟩
  · rw [hys4, hys3] at hy; simp at hy
  rcases hys2 : ys2 with _ | ⟨c, ys3⟩
  · rw [hys4, hys3, hys2] at hy; simp at hy
  rcases hys1 : ys3 with _ | ⟨e, ys4⟩
  · rw [hys4, hys3, hys2, hys1] at hy; simp at hy
  rcases hys0 : ys4 with _ | ⟨f, ys5⟩
  swap
  · rw [hys4, hys3, hys2, hys1, hys0] at hy; simp at hy
  subst hys0 hys1 hys2 hys3 hys4
  rcases hms : ms with _ | ⟨m1, ms1⟩
  · rw [hms] at hm; simp at hm
  refine ⟨m1, ms1 ++ '/' :: (ds ++ ['/', a, b, c]), e, ?_, ?_, ?_⟩
  · rw [hsj, hms]
    simp
  · exact hm.1.1.1 m1 (by rw [hms]; simp)
  · exact hy.1 e (by simp)

theorem pandasIsUnique_iff_nodup : ∀ l : List String, pandasIsUnique l = true ↔ l.Nodup := by
  intro l
  induction l with
  | nil => simp [pandasIsUnique]
  | cons x xs ih =>
    unfold pandasIsUnique
    rw [Bool.and_eq_true, Bool.not_eq_true', List.nodup_cons, ih]
    constructor
    · intro h
      have hnm : x ∉ xs := by
        intro hm
        have ht := List.elem_eq_true_of_mem hm
        have hf : xs.elem x = false := h.1
        rw [ht] at hf
        cases hf
      exact ⟨hnm, h.2⟩
    · intro h
      have hf : xs.contains x = false := by
        by_contra hne
        have hct : xs.contains x = true := by
          cases hb : xs.contains x
          · exact absurd hb hne
          · rfl
        exact h.1 (List.mem_of_elem_eq_true hct)
      exact ⟨hf, h.2⟩

/-- Stripping a list that starts and ends with non-whitespace is the
identity. -/
theorem pyStrip_core {x z : Char} (mid : List Char)
    (hx : isPySpace x = false) (hz : isPySpace z = false) :
    pyStrip (x :: mid ++ [z]) = x :: mid ++ [z] := by
  have := @pyStrip_pad [] [] (by simp) (by simp) x z mid hx hz
  simpa using this

/-- Non-standard date resolution succeeds exactly on strings whose
stripped form parses with `%m/%d/%Y`, and yields the zero-padded
"YYYY-MM". -/
theorem resolveDate_false_of_parse {raw : String} {y m d : Nat}
    (h : parseMDY (pyStrip raw.data) = some (y, m, d)) :
    resolveDate false raw = Except.ok (YM.fmt ⟨y, m⟩) := by
  unfold resolveDate
  rw [if_pos rfl, h]

/-- Starting from an empty series and a well-formed start month, the band
loop stores exactly one entry per band. -/
theorem sampleFold_length (h w : Nat) (varname : String) (bands : List (Int → Int → ℚ))
    (ym : YM) (r : Rec) (hv : ym.valid) (hinit : r.series = []) :
    (sampleFold h w varname bands ym r).series.length = bands.length := by
  rw [sampleFold_series h w varname bands ym r hv (by rw [hinit]; simp), hinit]
  simp [expectedEntries_length]

/-! ## The claims -/

/-- C1: the claimed reference conversion is `raw - 273.15` for `temp`, so
`convert("temp", 273.15)` should be 0.  The source's `convert_units`
subtracts 272.15 (line 65), so the result is 1 — the code is off by one
degree from its own "Kelvin to Celsius" comment.  The precipitation case
(`raw * 1000`, so `convert("precip", 0.001) = 1`) and the pass-through
case behave exactly as claimed. -/
theorem convert_units_temp_off_by_one :
    convert_units "temp" 273.15 = 1 ∧ convert_units "temp" 273.15 ≠ 0
    ∧ convert_units "precip" 0.001 = 1 ∧ convert_units "other" 42 = 42 := by
  refine ⟨?_, ?_, ?_, ?_⟩
  · unfold convert_units
    rw [if_pos rfl]
    norm_num
  · unfold convert_units
    rw [if_pos rfl]
    norm_num
  · unfold convert_units
    rw [if_neg (by decide), if_pos rfl]
    norm_num
  · unfold convert_units
    rw [if_neg (by decide), if_neg (by decide)]

/-- C2: with `standard_date = True` the raw date string is handed to
`np.datetime_as_string` without any conversion to `datetime64`
(lines 136-137), so resolution raises `TypeError` instead of producing the
"YYYY-MM" key: standard-mode date resolution fails for every string date,
well-formed or not. -/
theorem standard_mode_resolution_raises :
    resolveDate true "2019-03-15" = Except.error "TypeError: input must have type NumPy datetime"
    ∧ ∀ raw : String, resolveDate true raw
        = Except.error "TypeError: input must have type NumPy datetime" :=
  ⟨rfl, fun _ => rfl⟩

/-- C3 counterexample: on a concrete duplicate-ID input the run does stop
before any raster I/O, prints the FAIL message and writes no output — but
the claimed non-zero exit status is refuted: `sys.exit()` is called with
no argument, so the recorded exit status is 0. -/
theorem duplicate_ids_exit_zero_cex :
    runProgram cfgNS dupPoints rasterC
      = [Effect.mkOutputDir, Effect.readPointFile, Effect.printMsg failDupMsg, Effect.exitProg 0]
    ∧ ∀ c : Nat, Effect.exitProg c ∈ runProgram cfgNS dupPoints rasterC → c = 0 := by
  have h1 : runProgram cfgNS dupPoints rasterC
      = [Effect.mkOutputDir, Effect.readPointFile, Effect.printMsg failDupMsg,
         Effect.exitProg 0] := rfl
  refine ⟨h1, fun c hc => ?_⟩
  rw [h1] at hc
  simp at hc
  exact hc

/-- C3 (amended): duplicate unique IDs, and likewise an invalid variable
kind, terminate the run before any raster I/O with the descriptive FAIL
message and no output file; the exit status however is 0 (bare
`sys.exit()`), not non-zero. -/
theorem precondition_checks_exit (cfg : Config) (points : List InputPoint) (raster : Raster) :
    (¬ (points.map InputPoint.obs_num).Nodup →
      runProgram cfg points raster
        = [Effect.mkOutputDir, Effect.readPointFile, Effect.printMsg failDupMsg,
           Effect.exitProg 0])
    ∧ ((points.map InputPoint.obs_num).Nodup → cfg.varname ≠ "temp" → cfg.varname ≠ "precip" →
      runProgram cfg points raster
        = [Effect.mkOutputDir, Effect.readPointFile, Effect.printMsg failVarMsg,
           Effect.exitProg 0]) := by
  constructor
  · intro hdup
    have hu : pandasIsUnique (points.map InputPoint.obs_num) = false := by
      cases hb : pandasIsUnique (points.map InputPoint.obs_num)
      · rfl
      · exact absurd ((pandasIsUnique_iff_nodup _).mp hb) hdup
    unfold runProgram
    rw [if_pos hu]
  · intro hnd h1 h2
    have hu : ¬ pandasIsUnique (points.map InputPoint.obs_num) = false := by
      have := (pandasIsUnique_iff_nodup _).mpr hnd
      simp [this]
    have hv : ¬ (cfg.varname = "temp" ∨ cfg.varname = "precip") := by
      rintro (h | h)
      · exact h1 h
      · exact h2 h
    unfold runProgram
    rw [if_neg hu, if_pos hv]

/-- Witness for C3's amended theorem at concrete inputs: a duplicate-ID
run and an invalid-variable run, both exiting with status 0. -/
theorem precondition_checks_exit_witness :
    runProgram cfgNS dupPoints rasterC
      = [Effect.mkOutputDir, Effect.readPointFile, Effect.printMsg failDupMsg, Effect.exitProg 0]
    ∧ runProgram ⟨"banana", ⟨2018, 1⟩, false⟩ [plainPoint] rasterC
      = [Effect.mkOutputDir, Effect.readPointFile, Effect.printMsg failVarMsg,
         Effect.exitProg 0] :=
  ⟨(precondition_checks_exit cfgNS dupPoints rasterC).1 (by simp [dupPoints]),
   (precondition_checks_exit ⟨"banana", ⟨2018, 1⟩, false⟩ [plainPoint] rasterC).2
     (by simp [plainPoint]) (by decide) (by decide)⟩

/-- C4: a record whose cell address lies outside the raster grid gets
`None` for every period entry the band loop stores, and — provided its
observation date resolves at all (a parse failure would abort the whole
run before MATCH_VALUE is recorded) — its MATCH_VALUE is also `None`,
whatever its observation date is. -/
theorem oob_point_all_null (h w : Nat) (varname : String) (bands : List (Int → Int → ℚ))
    (ym : YM) (r : Rec) (std : Bool) (ymStr : String)
    (hoob : outOfGrid h w r.raster_row r.raster_col)
    (hinit : r.series = [])
    (hres : resolveDate std (sampleFold h w varname bands ym r).obs_date = Except.ok ymStr) :
    (∀ p ∈ (sampleFold h w varname bands ym r).series, p.2 = none)
    ∧ matchLoop std [sampleFold h w varname bands ym r]
        = Except.ok [{ sampleFold h w varname bands ym r with match_value := none }] := by
  have hall : ∀ p ∈ (sampleFold h w varname bands ym r).series, p.2 = none := by
    apply sampleFold_allNone h w varname bands ym r hoob
    rw [hinit]
    intro p hp
    exact absurd hp (List.not_mem_nil p)
  refine ⟨hall, ?_⟩
  rw [matchLoop_singleton hres, lookupYM_all_none hall]

/-- Witness for C4 at a concrete out-of-grid record. -/
theorem oob_point_all_null_witness :
    (∀ p ∈ (sampleFold 1 1 "temp" [bandW] ⟨2018, 1⟩ oobRec).series, p.2 = none)
    ∧ matchLoop false [sampleFold 1 1 "temp" [bandW] ⟨2018, 1⟩ oobRec]
        = Except.ok [{ sampleFold 1 1 "temp" [bandW] ⟨2018, 1⟩ oobRec with match_value := none }] :=
  oob_point_all_null 1 1 "temp" [bandW] ⟨2018, 1⟩ oobRec false "2018-01" (by decide) rfl rfl

/-- C5: in non-standard mode the raw date is parsed as MM/DD/YYYY with
slash separators: "03/15/2019" resolves to the period key "2019-03",
which is exactly the label of the 15th band when the start period is
2018-01 (14 months later); and a record holding a stored value under
"YM-2019-03" receives exactly that stored value as its MATCH_VALUE. -/
theorem nonstandard_mdy_match (r : Rec) (v : Option ℚ)
    (hdate : r.obs_date = "03/15/2019")
    (hv : r.series.lookup "YM-2019-03" = some v) :
    resolveDate false "03/15/2019" = Except.ok "2019-03"
    ∧ (YM.addMonths ⟨2018, 1⟩ 14).fmt = "2019-03"
    ∧ matchLoop false [r] = Except.ok [{ r with match_value := v }] := by
  refine ⟨rfl, by decide, ?_⟩
  have hres : resolveDate false r.obs_date = Except.ok "2019-03" := by
    rw [hdate]
    rfl
  rw [matchLoop_singleton hres]
  have hl : lookupYM ("YM-" ++ "2019-03") r.series = v := by
    have hk : ("YM-" ++ "2019-03" : String) = "YM-2019-03" := rfl
    rw [hk, lookupYM_eq_lookup, hv]
    rfl
  rw [hl]

/-- Witness for C5 at a concrete record storing 7 under "YM-2019-03". -/
theorem nonstandard_mdy_match_witness :
    resolveDate false "03/15/2019" = Except.ok "2019-03"
    ∧ (YM.addMonths ⟨2018, 1⟩ 14).fmt = "2019-03"
    ∧ matchLoop false [matchRec] = Except.ok [{ matchRec with match_value := some 7 }] :=
  nonstandard_mdy_match matchRec (some 7) rfl rfl

/-- C6: when the resolved observation year-month is not among the stored
period keys, MATCH_VALUE is recorded as `None` while the record — in
particular its populated time series — is otherwise unchanged, and the
matching step returns normally (no abort); the band loop populates one
series entry per band, so the full time series is present. -/
theorem out_of_range_null_match (std : Bool) (r : Rec) (ymStr : String)
    (hres : resolveDate std r.obs_date = Except.ok ymStr)
    (hnot : ("YM-" ++ ymStr) ∉ r.series.map Prod.fst) :
    matchLoop std [r] = Except.ok [{ r with match_value := none }]
    ∧ ∀ (h w : Nat) (vn : String) (bands : List (Int → Int → ℚ)) (ym : YM) (r0 : Rec),
        ym.valid → r0.series = [] →
        (sampleFold h w vn bands ym r0).series.length = bands.length := by
  constructor
  · rw [matchLoop_singleton hres, lookupYM_not_mem hnot]
  · intro h w vn bands ym r0 hv h0
    exact sampleFold_length h w vn bands ym r0 hv h0

/-- Witness for C6: a record whose date resolves to "2019-03" while only
"YM-2018-01" was sampled; plus a concrete populated series length. -/
theorem out_of_range_null_match_witness :
    matchLoop false [rangeRec] = Except.ok [{ rangeRec with match_value := none }]
    ∧ (sampleFold 1 1 "temp" [bandW] ⟨2018, 1⟩ recIn).series.length = 1 :=
  ⟨(out_of_range_null_match false rangeRec "2019-03" rfl (by decide)).1,
   (out_of_range_null_match false rangeRec "2019-03" rfl (by decide)).2
     1 1 "temp" [bandW] ⟨2018, 1⟩ recIn (by decide) rfl⟩

/-- C7: starting from 2018-01 the band loop generates the period keys in
band order — the i-th stored key is "YM-" before the label of the i-th
month after 2018-01 — with exactly one label per band; the label list has
no duplicates, consecutive labels advance by exactly one calendar month,
and the underlying year-months are strictly increasing. -/
theorem period_labels_spec (h w : Nat) (varname : String) (bands : List (Int → Int → ℚ))
    (r : Rec) (hinit : r.series = []) :
    (sampleFold h w varname bands ⟨2018, 1⟩ r).series.map Prod.fst
      = (List.range bands.length).map (fun i => "YM-" ++ (YM.addMonths ⟨2018, 1⟩ i).fmt)
    ∧ ((List.range bands.length).map (fun i => (YM.addMonths ⟨2018, 1⟩ i).fmt)).Nodup
    ∧ (∀ i : Nat, YM.addMonths ⟨2018, 1⟩ (i + 1) = (YM.addMonths ⟨2018, 1⟩ i).next)
    ∧ (∀ i j : Nat, i < j →
        (YM.addMonths ⟨2018, 1⟩ i).idx < (YM.addMonths ⟨2018, 1⟩ j).idx) := by
  have hv : (⟨2018, 1⟩ : YM).valid := by decide
  refine ⟨?_, ?_, fun i => rfl, ?_⟩
  · rw [sampleFold_series h w varname bands ⟨2018, 1⟩ r hv (by rw [hinit]; simp), hinit]
    simp [expectedEntries_keys]
  · apply (List.nodup_range _).map_on
    intro i _ j _ hfmt
    by_contra hne
    exact YM.fmt_addMonths_ne hv hne hfmt
  · intro i j hij
    rw [YM.idx_addMonths hv, YM.idx_addMonths hv]
    omega

/-- Witness for C7: two bands starting at 2018-01 give exactly the keys
"YM-2018-01", "YM-2018-02". -/
theorem period_labels_spec_witness :
    (sampleFold 1 1 "temp" [bandW, bandW] ⟨2018, 1⟩ recIn).series.map Prod.fst
      = ["YM-2018-01", "YM-2018-02"] :=
  ((period_labels_spec 1 1 "temp" [bandW, bandW] recIn rfl).1).trans (by decide)

/-- C8: for an in-grid record starting from an empty series, the value the
band loop stores at position i is exactly the i-th band's cell value at
the record's (row, column), passed through `convert_units` and then
`round4`, whatever the configured variable kind. -/
theorem stored_value_round_convert (h w : Nat) (varname : String)
    (bands : List (Int → Int → ℚ)) (ym : YM) (r : Rec)
    (hv : ym.valid) (hinit : r.series = [])
    (hin : ¬ outOfGrid h w r.raster_row r.raster_col) :
    (sampleFold h w varname bands ym r).series.length = bands.length
    ∧ ∀ (i : Nat) (hi : i < bands.length)
        (hi' : i < (sampleFold h w varname bands ym r).series.length),
        (sampleFold h w varname bands ym r).series.get ⟨i, hi'⟩
          = ("YM-" ++ (ym.addMonths i).fmt,
             some (round4 (convert_units varname (bands.get ⟨i, hi⟩ r.raster_row r.raster_col)))) := by
  have hser : (sampleFold h w varname bands ym r).series
      = expectedEntries h w varname r.raster_row r.raster_col bands ym := by
    rw [sampleFold_series h w varname bands ym r hv (by rw [hinit]; simp), hinit]
    simp
  constructor
  · rw [hser, expectedEntries_length]
  · intro i hi hi'
    have hie : i < (expectedEntries h w varname r.raster_row r.raster_col bands ym).length := by
      rw [expectedEntries_length]
      exact hi
    have hget := expectedEntries_getElem h w varname r.raster_row r.raster_col bands ym i hi hie
    have hcast : (sampleFold h w varname bands ym r).series.get ⟨i, hi'⟩
        = (expectedEntries h w varname r.raster_row r.raster_col bands ym).get ⟨i, hie⟩ :=
      List.get_of_eq hser ⟨i, hi'⟩
    rw [hcast, hget]
    unfold cellValue
    rw [if_neg hin]

/-- Witness for C8: one constant band sampled at (0,0). -/
theorem stored_value_round_convert_witness :
    (sampleFold 1 1 "temp" [bandW] ⟨2018, 1⟩ recIn).series.getD 0 ("", none)
      = ("YM-2018-01", some (round4 (convert_units "temp" (bandW 0 0)))) := by
  have h := stored_value_round_convert 1 1 "temp" [bandW] ⟨2018, 1⟩ recIn
    (by decide) rfl (by decide)
  have hi' : 0 < (sampleFold 1 1 "temp" [bandW] ⟨2018, 1⟩ recIn).series.length := by
    rw [h.1]
    norm_num
  have hg := h.2 0 (by norm_num) hi'
  rw [List.getD_eq_get _ _ hi', hg]
  rfl

/-- C9 counterexample: a point whose raw date is ISO-formatted while the
configured format is `%m/%d/%Y`.  The claim says the failure affects only
that record's MatchValue and that the already-computed time series remains
valid in the output; in fact the uncaught ValueError aborts the entire run
after the sampling passes — the CSV write never happens, so no time series
reaches any output, and the error message carries the raw string but not
the point's unique ID. -/
theorem malformed_date_aborts_run_cex :
    runProgram cfgNS [cexPoint] rasterC
      = [Effect.mkOutputDir, Effect.readPointFile, Effect.openRaster, Effect.openRaster,
         Effect.raiseExc "ValueError: time data 2019-03-15 does not match format %m/%d/%Y"]
    ∧ ∀ rows, Effect.writeCSV rows ∉ runProgram cfgNS [cexPoint] rasterC := by
  have h1 : runProgram cfgNS [cexPoint] rasterC
      = [Effect.mkOutputDir, Effect.readPointFile, Effect.openRaster, Effect.openRaster,
         Effect.raiseExc "ValueError: time data 2019-03-15 does not match format %m/%d/%Y"] := rfl
  refine ⟨h1, fun rows hmem => ?_⟩
  rw [h1] at hmem
  simp at hmem

/-- C9 (amended): whenever the date loop fails on any record's raw date,
the uncaught exception aborts the entire run: the trace ends at the raise
and no CSV output is ever written, so the failure is not confined to that
record's MatchValue and no time series survives to the output. -/
theorem malformed_date_aborts_run (cfg : Config) (points : List InputPoint)
    (raster : Raster) (e : String)
    (hu : pandasIsUnique (points.map InputPoint.obs_num) = true)
    (hv : cfg.varname = "temp" ∨ cfg.varname = "precip")
    (herr : matchLoop cfg.standard_date (pipelineRecs cfg points raster) = Except.error e) :
    runProgram cfg points raster
      = [Effect.mkOutputDir, Effect.readPointFile, Effect.openRaster, Effect.openRaster,
         Effect.raiseExc e]
    ∧ ∀ rows, Effect.writeCSV rows ∉ runProgram cfg points raster := by
  have h1 : runProgram cfg points raster
      = [Effect.mkOutputDir, Effect.readPointFile, Effect.openRaster, Effect.openRaster,
         Effect.raiseExc e] := by
    unfold runProgram
    rw [if_neg (by simp [hu]), if_neg (not_not_intro hv), herr]
  refine ⟨h1, fun rows hmem => ?_⟩
  rw [h1] at hmem
  simp at hmem

/-- Witness for C9's amended theorem at a concrete unparseable date. -/
theorem malformed_date_aborts_run_witness :
    runProgram cfgNS [badDatePoint] rasterC
      = [Effect.mkOutputDir, Effect.readPointFile, Effect.openRaster, Effect.openRaster,
         Effect.raiseExc "ValueError: time data not-a-date does not match format %m/%d/%Y"]
    ∧ ∀ rows, Effect.writeCSV rows ∉ runProgram cfgNS [badDatePoint] rasterC :=
  malformed_date_aborts_run cfgNS [badDatePoint] rasterC
    "ValueError: time data not-a-date does not match format %m/%d/%Y"
    rfl (Or.inl rfl) rfl

/-- C10: in non-standard mode the raw date is stripped with `str.strip()`
before parsing (line 133), so a whitespace-padded variant of any date
string that parses as MM/DD/YYYY resolves to exactly the same year-month
key as the unpadded string. -/
theorem strip_whitespace_resolution (pre post : List Char) (s : String) (y m d : Nat)
    (hpre : ∀ c ∈ pre, isPySpace c = true) (hpost : ∀ c ∈ post, isPySpace c = true)
    (hparse : parseMDY s.data = some (y, m, d)) :
    resolveDate false ⟨pre ++ s.data ++ post⟩ = resolveDate false s
    ∧ resolveDate false s = Except.ok (YM.fmt ⟨y, m⟩) := by
  obtain ⟨x, mid, z, hshape, hx, hz⟩ := parseMDY_sandwich hparse
  have hxs := digit_not_space hx
  have hzs := digit_not_space hz
  have e1 : pyStrip s.data = s.data := by
    rw [hshape]
    exact pyStrip_core mid hxs hzs
  have e2 : pyStrip (pre ++ s.data ++ post) = s.data := by
    rw [hshape]
    exact pyStrip_pad hpre hpost mid hxs hzs
  have core1 : resolveDate false s = Except.ok (YM.fmt ⟨y, m⟩) :=
    resolveDate_false_of_parse (by rw [e1]; exact hparse)
  have core2 : resolveDate false ⟨pre ++ s.data ++ post⟩ = Except.ok (YM.fmt ⟨y, m⟩) :=
    resolveDate_false_of_parse (by rw [show (⟨pre ++ s.data ++ post⟩ : String).data
      = pre ++ s.data ++ post from rfl, e2]; exact hparse)
  exact ⟨core2.trans core1.symm, core1⟩

/-- Witness for C10: " 03/15/2019  " (padded) resolves like
"03/15/2019". -/
theorem strip_whitespace_resolution_witness :
    resolveDate false ⟨[' '] ++ "03/15/2019".data ++ [' ', ' ']⟩ = resolveDate false "03/15/2019"
    ∧ resolveDate false "03/15/2019" = Except.ok (YM.fmt ⟨2019, 3⟩) :=
  strip_whitespace_resolution [' '] [' ', ' '] "03/15/2019" 2019 3 15
    (by decide) (by decide) (by decide)

end Era5
